import Mathlib

/-!
Verification development for the YT True History extension
(watch-intent detector, history store, settings layer, categorization
queue, weekly report path).  Each definition is a shallow embedding of
the corresponding JavaScript function; file and line references point at
the repository sources.  JavaScript numbers are modelled as rationals
(`ℚ`) where fractional arithmetic matters and as `ℕ`/`ℤ` where the data
model fixes integers; fallible paths are modelled with `Option`/`Except`.
-/

namespace YTH

/-! ### Watch-intent detector — content/tracker.js

`watchedEnough` embeds the qualification test of `evaluateAndSend`
(tracker.js lines 148-160); `trackWatchTime` embeds lines 137-146; the
`ended` listener is lines 122-126.  The player duration is modelled as a
whole number of seconds (the data model fixes `totalDuration` as an
integer; `evaluateAndSend` floors it anyway), `currentTime` and the
accumulated `watchedSeconds` as rationals.
-/

structure TrackerCfg where
  minWatchPercent : ℚ
  minWatchTimeSeconds : ℚ
  trackingEnabled : Bool
  countHiddenTime : Bool
deriving Repr, DecidableEq

structure TrackerState where
  watchedSeconds : ℚ
  hasRecorded : Bool
deriving Repr, DecidableEq

/-- The state `resetTracking` (tracker.js lines 107-116) establishes. -/
def initialTrackerState : TrackerState := { watchedSeconds := 0, hasRecorded := false }

/-- tracker.js line 156: `percentWatched >= percentThreshold || watchedSeconds >= timeThreshold`
with `percentWatched = Math.min(100, (player.currentTime / duration) * 100)`. -/
def watchedEnough (cfg : TrackerCfg) (currentTime : ℚ) (duration : ℕ) (watchedSeconds : ℚ) : Bool :=
  decide (cfg.minWatchPercent ≤ min 100 (currentTime / (duration : ℚ) * 100)) ||
    decide (cfg.minWatchTimeSeconds ≤ watchedSeconds)

/-- tracker.js lines 148-160.  Returns the successor state and whether a
watch event was emitted (`sendVideoRecord` reached). -/
def evaluateAndSend (cfg : TrackerCfg) (duration : ℕ) (st : TrackerState)
    (currentTime : ℚ) : TrackerState × Bool :=
  if st.hasRecorded then (st, false)
  else if !cfg.trackingEnabled then (st, false)
  else if duration = 0 then (st, false)
  else if watchedEnough cfg currentTime duration st.watchedSeconds then
    ({ st with hasRecorded := true }, true)
  else (st, false)

/-- One player observation taken at the 1 s polling cadence. -/
structure Sample where
  currentTime : ℚ
  paused : Bool
  ended : Bool
  hidden : Bool
deriving Repr, DecidableEq

/-- tracker.js lines 137-146: accumulate one second of watch time unless
paused/ended/duration-unknown, drop hidden-tab samples unless
`countHiddenTime`, then evaluate qualification. -/
def trackWatchTime (cfg : TrackerCfg) (duration : ℕ) (st : TrackerState)
    (s : Sample) : TrackerState × Bool :=
  if s.paused || s.ended || duration = 0 then (st, false)
  else if !cfg.countHiddenTime && s.hidden then (st, false)
  else evaluateAndSend cfg duration { st with watchedSeconds := st.watchedSeconds + 1 } s.currentTime

/-- tracker.js lines 122-126: the `ended` listener evaluates once more
when nothing was recorded yet. -/
def onEnded (cfg : TrackerCfg) (duration : ℕ) (st : TrackerState)
    (s : Sample) : TrackerState × Bool :=
  if !st.hasRecorded then evaluateAndSend cfg duration st s.currentTime else (st, false)

/-- The two event sources feeding the detector within one detection
session: interval ticks and terminal `ended` events. -/
inductive PlayerEvent
  | tick (s : Sample)
  | endedEvt (s : Sample)
deriving Repr, DecidableEq

def stepEvent (cfg : TrackerCfg) (duration : ℕ) (st : TrackerState) :
    PlayerEvent → TrackerState × Bool
  | .tick s => trackWatchTime cfg duration st s
  | .endedEvt s => onEnded cfg duration st s

/-- Runs one detection session (no `resetTracking` in between) over a
finite event sequence, counting emitted watch events. -/
def runTracker (cfg : TrackerCfg) (duration : ℕ) :
    List PlayerEvent → TrackerState → TrackerState × ℕ
  | [], st => (st, 0)
  | e :: es, st =>
    let p := stepEvent cfg duration st e
    let q := runTracker cfg duration es p.1
    (q.1, (if p.2 then 1 else 0) + q.2)

/-- The thresholds of the spec example: duration 600 s handled below,
`minWatchPercent = 40`, `minWatchTimeSeconds = 300` (also the source
defaults, tracker.js lines 13-19). -/
def cfg600 : TrackerCfg :=
  { minWatchPercent := 40, minWatchTimeSeconds := 300
    trackingEnabled := true, countHiddenTime := false }

lemma evaluateAndSend_of_recorded (cfg : TrackerCfg) (d : ℕ) (st : TrackerState)
    (ct : ℚ) (h : st.hasRecorded = true) :
    evaluateAndSend cfg d st ct = (st, false) := by
  simp [evaluateAndSend, h]

lemma stepEvent_of_recorded (cfg : TrackerCfg) (d : ℕ) (st : TrackerState)
    (e : PlayerEvent) (h : st.hasRecorded = true) :
    (stepEvent cfg d st e).1.hasRecorded = true ∧ (stepEvent cfg d st e).2 = false := by
  cases e with
  | tick s =>
    simp only [stepEvent, trackWatchTime]
    split
    · simpa using h
    · split
      · simpa using h
      · rw [evaluateAndSend_of_recorded _ _ _ _ (by simpa using h)]
        simpa using h
  | endedEvt s =>
    simp [stepEvent, onEnded, h]

lemma stepEvent_emit (cfg : TrackerCfg) (d : ℕ) (st : TrackerState) (e : PlayerEvent)
    (h : (stepEvent cfg d st e).2 = true) :
    (stepEvent cfg d st e).1.hasRecorded = true := by
  cases e with
  | tick s =>
    simp only [stepEvent, trackWatchTime] at h ⊢
    split at h
    · simp at h
    · split at h
      · simp at h
      · simp only [evaluateAndSend] at h ⊢
        split at h <;> first | ((split_ifs at h ⊢); simp_all) | simp_all
  | endedEvt s =>
    simp only [stepEvent, onEnded] at h ⊢
    split at h
    · simp only [evaluateAndSend] at h ⊢
      split at h <;> first | ((split_ifs at h ⊢); simp_all) | simp_all
    · simp at h

lemma runTracker_of_recorded (cfg : TrackerCfg) (d : ℕ) :
    ∀ (es : List PlayerEvent) (st : TrackerState), st.hasRecorded = true →
      (runTracker cfg d es st).2 = 0
  | [], _, _ => rfl
  | e :: es, st, h => by
    obtain ⟨h1, h2⟩ := stepEvent_of_recorded cfg d st e h
    simp only [runTracker, h2, if_false]
    simpa using runTracker_of_recorded cfg d es _ h1

lemma runTracker_le_one (cfg : TrackerCfg) (d : ℕ) :
    ∀ (es : List PlayerEvent) (st : TrackerState), (runTracker cfg d es st).2 ≤ 1
  | [], _ => by simp [runTracker]
  | e :: es, st => by
    simp only [runTracker]
    by_cases hem : (stepEvent cfg d st e).2 = true
    · have hrec := stepEvent_emit cfg d st e hem
      simp [hem, runTracker_of_recorded cfg d es _ hrec]
    · simp only [Bool.not_eq_true] at hem
      simpa [hem] using runTracker_le_one cfg d es (stepEvent cfg d st e).1

/-- C2: with a known positive duration, an evaluation of a
not-yet-recorded tracking-enabled session emits exactly when
`min(100, currentTime/duration*100) ≥ minWatchPercent` or
`watchedSeconds ≥ minWatchTimeSeconds`; with duration 600 s,
thresholds 40 % / 300 s, a position of 245 s qualifies, a position of
239 s with 239 accumulated seconds does not, and 300 accumulated
seconds at 10 % progress (duration 6000 s) qualifies via the time
branch. -/
theorem evaluateAndSend_threshold_or_semantics :
    (∀ (cfg : TrackerCfg) (d : ℕ) (ct ws : ℚ),
        cfg.trackingEnabled = true → 0 < d →
        ((evaluateAndSend cfg d ⟨ws, false⟩ ct).2 = true ↔
          (cfg.minWatchPercent ≤ min 100 (ct / (d : ℚ) * 100) ∨
            cfg.minWatchTimeSeconds ≤ ws)))
    ∧ (evaluateAndSend cfg600 600 ⟨0, false⟩ 245).2 = true
    ∧ (evaluateAndSend cfg600 600 ⟨239, false⟩ 239).2 = false
    ∧ (evaluateAndSend cfg600 6000 ⟨300, false⟩ 600).2 = true := by
  refine ⟨?_, ?_, ?_, ?_⟩
  · intro cfg d ct ws htr hd
    simp only [evaluateAndSend, htr, Nat.pos_iff_ne_zero.mp hd, watchedEnough,
      Bool.not_true, Bool.false_eq_true, if_false, decide_eq_true_eq, Bool.or_eq_true]
    split_ifs with h <;> simp_all [le_min_iff]
  · norm_num [evaluateAndSend, cfg600, watchedEnough, min_def]
  · norm_num [evaluateAndSend, cfg600, watchedEnough, min_def]
  · norm_num [evaluateAndSend, cfg600, watchedEnough, min_def]

/-- Witness for C2: the general equivalence instantiated at the first
spec example (duration 600, position 245, no accumulated time). -/
theorem evaluateAndSend_threshold_or_semantics_witness :
    (evaluateAndSend cfg600 600 ⟨(0 : ℚ), false⟩ 245).2 = true ↔
      ((40 : ℚ) ≤ min 100 ((245 : ℚ) / (600 : ℕ) * 100) ∨ (300 : ℚ) ≤ 0) :=
  evaluateAndSend_threshold_or_semantics.1 cfg600 600 245 0 rfl (by decide)

/-- C3: over any finite sequence of poll ticks and `ended` events within
one detection session (one mediaId, no reset), the detector emits at
most one watch event. -/
theorem detector_at_most_once (cfg : TrackerCfg) (d : ℕ) (events : List PlayerEvent) :
    (runTracker cfg d events initialTrackerState).2 ≤ 1 :=
  runTracker_le_one cfg d events initialTrackerState

/-! ### History store — utils/storage.js

`Video` mirrors the watch-record shape built by
`buildVideoPayload` (tracker.js lines 177-201); `watchedAt` is the
epoch-milliseconds value of the stored ISO timestamp (the code only
ever compares it through `new Date(...).getTime()`). -/

structure Video where
  videoId : String
  title : String
  channelName : String
  channelId : String
  thumbnail : String
  watchedAt : ℤ
  watchedDuration : ℕ
  totalDuration : ℕ
  watchPercent : ℕ
  autoplay : Bool
  rewatchCount : ℕ
  aiCategory : Option String
  aiCategoryConfidence : Option String
deriving Repr, DecidableEq

/-- JavaScript `x || 1` on a number: `0` (and a missing field modelled
as `0` nowhere here) is falsy. -/
def orOne (n : ℕ) : ℕ := if n = 0 then 1 else n

/-- storage.js lines 313-334 (`saveVideo`): replace the first record with
the same `videoId` — new fields win, `rewatchCount` becomes
`(existing.rewatchCount || 1) + 1` — otherwise push with
`rewatchCount: video.rewatchCount || 1`. -/
def saveVideo : List Video → Video → List Video
  | [], v => [{ v with rewatchCount := orOne v.rewatchCount }]
  | x :: xs, v =>
    if x.videoId = v.videoId then
      { v with rewatchCount := orOne x.rewatchCount + 1 } :: xs
    else x :: saveVideo xs v

/-- storage.js lines 347-357 (`updateVideo`) specialised to the only
field set the callers pass: `{aiCategory, aiCategoryConfidence}`
(service-worker.js lines 99-102 and 156-159).  No-op when the id is
absent. -/
def updateVideoCategory : List Video → String → Option String → Option String → List Video
  | [], _, _, _ => []
  | x :: xs, id, cat, conf =>
    if x.videoId = id then { x with aiCategory := cat, aiCategoryConfidence := conf } :: xs
    else x :: updateVideoCategory xs id cat conf

/-- First record with the given id (`videos.findIndex` view). -/
def findVideo (videos : List Video) (id : String) : Option Video :=
  videos.find? (fun v => v.videoId == id)

/-- Number of records carrying the given id. -/
def countId (videos : List Video) (id : String) : ℕ :=
  videos.countP (fun v => v.videoId == id)

/-- service-worker.js lines 162-173 (`applyRetentionPolicy`): cutoff at
`now - {90,182,365} days` in milliseconds; keep records with
`watchedAt ≥ cutoff`; `'all'` (or an unknown value) is a no-op. -/
def applyRetentionPolicy (dataRetention : String) (now : ℤ) (history : List Video) : List Video :=
  if dataRetention = "all" then history
  else
    match (if dataRetention = "3m" then some (90 : ℤ)
           else if dataRetention = "6m" then some 182
           else if dataRetention = "1y" then some 365 else none) with
    | none => history
    | some days =>
      history.filter (fun v => decide (now - days * 86400000 ≤ v.watchedAt))

/-! Import (`importHistory`, storage.js lines 467-492).  Imported JSON
records may lack fields, so they are modelled with optional fields; the
current store is passed through the same `Map`-based merge. -/

structure RawVideo where
  videoId : Option String
  title : Option String
  rewatchCount : Option ℕ
deriving Repr, DecidableEq

/-- JavaScript `x || 1` on an optional number field. -/
def rawOrOne : Option ℕ → ℕ
  | some n => orOne n
  | none => 1

/-- The spread-merge of storage.js lines 478-482: incoming present
fields win, `rewatchCount` becomes
`Math.max(existing.rewatchCount || 1, video.rewatchCount || 1)`. -/
def mergeImport (existing incoming : RawVideo) : RawVideo :=
  { videoId := incoming.videoId.orElse (fun _ => existing.videoId)
    title := incoming.title.orElse (fun _ => existing.title)
    rewatchCount := some (max (rawOrOne existing.rewatchCount) (rawOrOne incoming.rewatchCount)) }

/-- `Map.set` on an existing key: replace in place, keep position. -/
def setRaw : List RawVideo → String → RawVideo → List RawVideo
  | [], _, v => [v]
  | x :: xs, id, v =>
    if x.videoId = some id then v :: xs else x :: setRaw xs id v

def findRaw (store : List RawVideo) (id : String) : Option RawVideo :=
  store.find? (fun v => v.videoId == some id)

def countRaw (store : List RawVideo) (id : String) : ℕ :=
  store.countP (fun v => v.videoId == some id)

/-- One iteration of the `importedVideos.forEach` body (storage.js lines
474-486): skip entries with a falsy `videoId`, merge on conflict, add
otherwise. -/
def importStep (store : List RawVideo) (v : RawVideo) : List RawVideo :=
  match v.videoId with
  | none => store
  | some id =>
    if id = "" then store
    else
      match findRaw store id with
      | some existing => setRaw store id (mergeImport existing v)
      | none => store ++ [v]

/-- storage.js lines 467-492 (`importHistory`): fold the incoming list
into the `Map` built from the current store (unique current ids assumed
by the theorems, under which the `Map` keeps the current list as-is). -/
def importHistory (current incoming : List RawVideo) : List RawVideo :=
  incoming.foldl importStep current

/-! ### Settings storage — utils/storage.js lines 241-307 -/

/-- A fully populated settings record. -/
structure Settings where
  minWatchPercent : ℚ
  minWatchTimeSeconds : ℚ
  trackAutoplay : Bool
  countHiddenTime : Bool
  dataRetention : String
  openRouterApiKey : String
  aiFeaturesEnabled : Bool
  trackingEnabled : Bool
deriving Repr, DecidableEq

/-- A possibly partial settings object as passed to or held by
`chrome.storage` (absent fields are `none`). -/
structure StoredSettings where
  minWatchPercent : Option ℚ := none
  minWatchTimeSeconds : Option ℚ := none
  trackAutoplay : Option Bool := none
  countHiddenTime : Option Bool := none
  dataRetention : Option String := none
  openRouterApiKey : Option String := none
  aiFeaturesEnabled : Option Bool := none
  trackingEnabled : Option Bool := none
deriving Repr, DecidableEq

/-- storage.js lines 241-250. -/
def DEFAULT_SETTINGS : Settings :=
  { minWatchPercent := 40, minWatchTimeSeconds := 300
    trackAutoplay := true, countHiddenTime := false
    dataRetention := "all", openRouterApiKey := ""
    aiFeaturesEnabled := true, trackingEnabled := true }

/-- The per-field overlay `{...DEFAULT_SETTINGS, ...p}`. -/
def overlayDefaults (p : StoredSettings) : Settings :=
  { minWatchPercent := p.minWatchPercent.getD DEFAULT_SETTINGS.minWatchPercent
    minWatchTimeSeconds := p.minWatchTimeSeconds.getD DEFAULT_SETTINGS.minWatchTimeSeconds
    trackAutoplay := p.trackAutoplay.getD DEFAULT_SETTINGS.trackAutoplay
    countHiddenTime := p.countHiddenTime.getD DEFAULT_SETTINGS.countHiddenTime
    dataRetention := p.dataRetention.getD DEFAULT_SETTINGS.dataRetention
    openRouterApiKey := p.openRouterApiKey.getD DEFAULT_SETTINGS.openRouterApiKey
    aiFeaturesEnabled := p.aiFeaturesEnabled.getD DEFAULT_SETTINGS.aiFeaturesEnabled
    trackingEnabled := p.trackingEnabled.getD DEFAULT_SETTINGS.trackingEnabled }

/-- View a full record as a stored object with every field present. -/
def toStored (s : Settings) : StoredSettings :=
  { minWatchPercent := some s.minWatchPercent
    minWatchTimeSeconds := some s.minWatchTimeSeconds
    trackAutoplay := some s.trackAutoplay
    countHiddenTime := some s.countHiddenTime
    dataRetention := some s.dataRetention
    openRouterApiKey := some s.openRouterApiKey
    aiFeaturesEnabled := some s.aiFeaturesEnabled
    trackingEnabled := some s.trackingEnabled }

/-- storage.js lines 286-294 (`getSettings`): stored settings merged
over the defaults. -/
def getSettingsModel (stored : StoredSettings) : Settings :=
  overlayDefaults stored

/-- storage.js lines 300-307 (`saveSettings`): the settings section is
replaced wholesale by `{...DEFAULT_SETTINGS, ...newSettings}`; the
previous stored value is never read. -/
def saveSettingsState (_before : StoredSettings) (newSettings : StoredSettings) : StoredSettings :=
  toStored (overlayDefaults newSettings)

/-- popup.js tracking toggle (`saveSettings({trackingEnabled: ...})`
in `bindEvents`): a partial object holding only `trackingEnabled`. -/
def popupTogglePartial (b : Bool) : StoredSettings :=
  { trackingEnabled := some b }

lemma orOne_of_pos {n : ℕ} (h : 1 ≤ n) : orOne n = n := by
  simp [orOne, Nat.pos_iff_ne_zero.mp h]

lemma saveVideo_merge_aux :
    ∀ (videos : List Video) (e ex : Video),
      (videos.map Video.videoId).Nodup →
      (∀ v ∈ videos, 1 ≤ v.rewatchCount) →
      findVideo videos e.videoId = some ex →
      countId (saveVideo videos e) e.videoId = 1 ∧
      findVideo (saveVideo videos e) e.videoId =
        some { e with rewatchCount := ex.rewatchCount + 1 }
  | [], e, ex, _, _, hfind => by simp [findVideo] at hfind
  | x :: xs, e, ex, hnd, hrw, hfind => by
    rw [List.map_cons, List.nodup_cons] at hnd
    by_cases hx : x.videoId = e.videoId
    · have hex : x = ex := by
        simp [findVideo, List.find?_cons, hx] at hfind
        exact hfind
      subst hex
      have hxs : ∀ v ∈ xs, ¬(v.videoId == e.videoId) = true := by
        intro v hv hveq
        exact hnd.1 (hx ▸ (beq_iff_eq.mp hveq) ▸ List.mem_map_of_mem Video.videoId hv)
      constructor
      · simp only [saveVideo, hx, if_true, countId, List.countP_cons, beq_self_eq_true,
          if_true]
        rw [List.countP_eq_zero.mpr hxs]
      · simp only [saveVideo, hx, if_true, findVideo, List.find?_cons, beq_self_eq_true,
          cond_true]
        rw [orOne_of_pos (hrw x (List.mem_cons_self x xs))]
    · have hfind' : findVideo xs e.videoId = some ex := by
        simpa [findVideo, List.find?_cons, beq_eq_false_iff_ne.mpr hx] using hfind
      obtain ⟨ih1, ih2⟩ := saveVideo_merge_aux xs e ex hnd.2
        (fun v hv => hrw v (List.mem_cons_of_mem x hv)) hfind'
      constructor
      · simp only [saveVideo, hx, if_false, countId, List.countP_cons,
          beq_eq_false_iff_ne.mpr hx, if_false]
        simpa [countId] using ih1
      · simpa [saveVideo, hx, findVideo, List.find?_cons,
          beq_eq_false_iff_ne.mpr hx] using ih2

lemma saveVideo_insert_aux :
    ∀ (videos : List Video) (e : Video),
      findVideo videos e.videoId = none →
      saveVideo videos e = videos ++ [{ e with rewatchCount := orOne e.rewatchCount }]
  | [], e, _ => rfl
  | x :: xs, e, hfind => by
    have hx : ¬x.videoId = e.videoId := by
      intro hx
      simp [findVideo, List.find?_cons, hx] at hfind
    have hfind' : findVideo xs e.videoId = none := by
      simpa [findVideo, List.find?_cons, beq_eq_false_iff_ne.mpr hx] using hfind
    simp [saveVideo, hx, saveVideo_insert_aux xs e hfind']

/-- C4: under the store invariants (one record per id, `rewatchCount ≥ 1`)
and the watch-event shape (`rewatchCount = 1`), `saveVideo` with an
existing id leaves exactly one record for that id, equal to the new
event except `rewatchCount = existing.rewatchCount + 1`; with a fresh id
it appends the event (so `rewatchCount = 1`); and two upserts of the
same id into an empty store give one record with `rewatchCount = 2`
carrying the second event's fields. -/
theorem saveVideo_upsert_merge :
    (∀ (videos : List Video) (e ex : Video),
        (videos.map Video.videoId).Nodup →
        (∀ v ∈ videos, 1 ≤ v.rewatchCount) →
        findVideo videos e.videoId = some ex →
        countId (saveVideo videos e) e.videoId = 1 ∧
        findVideo (saveVideo videos e) e.videoId =
          some { e with rewatchCount := ex.rewatchCount + 1 })
    ∧ (∀ (videos : List Video) (e : Video),
        e.rewatchCount = 1 →
        findVideo videos e.videoId = none →
        saveVideo videos e = videos ++ [e])
    ∧ (∀ e1 e2 : Video, e1.videoId = e2.videoId →
        e1.rewatchCount = 1 → e2.rewatchCount = 1 →
        saveVideo (saveVideo [] e1) e2 = [{ e2 with rewatchCount := 2 }]) := by
  refine ⟨saveVideo_merge_aux, ?_, ?_⟩
  · intro videos e he hfind
    have h := saveVideo_insert_aux videos e hfind
    rw [orOne_of_pos (by rw [he])] at h
    exact h
  · intro e1 e2 hid h1 h2
    simp [saveVideo, h1, hid, orOne]

/-- Witness for C4: concrete double upsert of id `"v"` into the empty
store. -/
def c4e1 : Video :=
  { videoId := "v", title := "first", channelName := "ch", channelId := "cid"
    thumbnail := "t1", watchedAt := 100, watchedDuration := 10, totalDuration := 20
    watchPercent := 50, autoplay := false, rewatchCount := 1
    aiCategory := none, aiCategoryConfidence := none }

def c4e2 : Video :=
  { c4e1 with title := "second", thumbnail := "t2", watchedAt := 200 }

theorem saveVideo_upsert_merge_witness :
    saveVideo (saveVideo [] c4e1) c4e2 = [{ c4e2 with rewatchCount := 2 }] :=
  saveVideo_upsert_merge.2.2 c4e1 c4e2 rfl rfl rfl

lemma setRaw_find_count :
    ∀ (store : List RawVideo) (id : String) (w : RawVideo),
      (store.map RawVideo.videoId).Nodup →
      (findRaw store id).isSome →
      w.videoId = some id →
      findRaw (setRaw store id w) id = some w ∧
      countRaw (setRaw store id w) id = 1
  | [], _, _, _, hfind, _ => by simp [findRaw] at hfind
  | x :: xs, id, w, hnd, hfind, hw => by
    rw [List.map_cons, List.nodup_cons] at hnd
    by_cases hx : x.videoId = some id
    · have hxs : ∀ v ∈ xs, ¬(v.videoId == some id) = true := by
        intro v hv hveq
        exact hnd.1 (hx ▸ (beq_iff_eq.mp hveq) ▸ List.mem_map_of_mem RawVideo.videoId hv)
      refine ⟨?_, ?_⟩
      · simp [setRaw, hx, findRaw, List.find?_cons, hw]
      · simp only [setRaw, hx, if_true, countRaw, List.countP_cons, hw,
          beq_self_eq_true, if_true]
        rw [List.countP_eq_zero.mpr hxs]
    · have hfind' : (findRaw xs id).isSome := by
        simpa [findRaw, List.find?_cons, beq_eq_false_iff_ne.mpr hx] using hfind
      obtain ⟨ih1, ih2⟩ := setRaw_find_count xs id w hnd.2 hfind' hw
      refine ⟨?_, ?_⟩
      · simpa [setRaw, hx, findRaw, List.find?_cons,
          beq_eq_false_iff_ne.mpr hx] using ih1
      · simp only [setRaw, hx, if_false, countRaw, List.countP_cons,
          beq_eq_false_iff_ne.mpr hx, if_false]
        simpa [countRaw] using ih2

/-- C6: importing against a store with unique, present ids: an incoming
record whose id exists merges with `rewatchCount = max` (never the sum)
and leaves exactly one record for that id; a fresh id is appended;
records lacking an id are skipped without affecting or failing the
import. -/
theorem importHistory_merge_not_sum :
    (∀ (current : List RawVideo) (v ex : RawVideo) (id : String) (n m : ℕ),
        (current.map RawVideo.videoId).Nodup →
        v.videoId = some id → id ≠ "" →
        findRaw current id = some ex →
        ex.rewatchCount = some n → 1 ≤ n →
        v.rewatchCount = some m → 1 ≤ m →
        findRaw (importHistory current [v]) id = some (mergeImport ex v) ∧
        (mergeImport ex v).rewatchCount = some (max n m) ∧
        countRaw (importHistory current [v]) id = 1)
    ∧ (∀ (current : List RawVideo) (v : RawVideo) (id : String),
        v.videoId = some id → id ≠ "" →
        findRaw current id = none →
        importHistory current [v] = current ++ [v])
    ∧ (∀ (current pre post : List RawVideo) (bad : RawVideo),
        bad.videoId = none →
        importHistory current (pre ++ bad :: post) = importHistory current (pre ++ post)) := by
  refine ⟨?_, ?_, ?_⟩
  · intro current v ex id n m hnd hv hid hfind hexn hn hvm hm
    have hstep : importHistory current [v] = setRaw current id (mergeImport ex v) := by
      simp [importHistory, importStep, hv, hid, hfind]
    have hwid : (mergeImport ex v).videoId = some id := by
      simp [mergeImport, hv, Option.orElse]
    obtain ⟨h1, h2⟩ := setRaw_find_count current id (mergeImport ex v) hnd
      (by simp [hfind]) hwid
    refine ⟨hstep ▸ h1, ?_, hstep ▸ h2⟩
    simp [mergeImport, hexn, hvm, rawOrOne, orOne_of_pos hn, orOne_of_pos hm]
  · intro current v id hv hid hfind
    simp [importHistory, importStep, hv, hid, hfind]
  · intro current pre post bad hbad
    simp only [importHistory, List.foldl_append, List.foldl_cons]
    have : importStep (List.foldl importStep current pre) bad =
        List.foldl importStep current pre := by
      simp [importStep, hbad]
    rw [this]

/-- Witness for C6: the spec's example — incoming `rewatchCount = 3`
against existing `rewatchCount = 5` yields `max 5 3 = 5`, not `8`. -/
def c6existing : RawVideo := { videoId := some "a", title := some "old", rewatchCount := some 5 }

def c6incoming : RawVideo := { videoId := some "a", title := some "new", rewatchCount := some 3 }

theorem importHistory_merge_not_sum_witness :
    findRaw (importHistory [c6existing] [c6incoming]) "a" =
      some (mergeImport c6existing c6incoming) ∧
    (mergeImport c6existing c6incoming).rewatchCount = some 5 ∧
    countRaw (importHistory [c6existing] [c6incoming]) "a" = 1 :=
  importHistory_merge_not_sum.1 [c6existing] c6incoming c6existing "a" 5 3
    (by simp) rfl (by decide) rfl rfl (by decide) rfl (by decide)

/-- C10: `saveSettings` persists `{...DEFAULT_SETTINGS, ...p}` without
reading the previous settings, so every field absent from the partial
object `p` is reset to its hardcoded default; in particular the popup's
tracking toggle (which saves only `trackingEnabled`) wipes a stored
custom API key and custom thresholds back to the defaults. -/
theorem saveSettings_resets_unspecified_fields :
    (∀ (before p : StoredSettings),
        getSettingsModel (saveSettingsState before p) = overlayDefaults p)
    ∧ (∀ (before : StoredSettings) (b : Bool),
        before.openRouterApiKey = some "sk-custom" →
        before.minWatchPercent = some 70 →
        (getSettingsModel before).openRouterApiKey = "sk-custom" ∧
        (getSettingsModel before).minWatchPercent = 70 ∧
        getSettingsModel (saveSettingsState before (popupTogglePartial b)) =
          { DEFAULT_SETTINGS with trackingEnabled := b }) := by
  constructor
  · intro before p
    simp [getSettingsModel, saveSettingsState, overlayDefaults, toStored]
  · intro before b hkey hpct
    refine ⟨?_, ?_, ?_⟩
    · simp [getSettingsModel, overlayDefaults, hkey]
    · simp [getSettingsModel, overlayDefaults, hpct]
    · simp [getSettingsModel, saveSettingsState, overlayDefaults, toStored,
        popupTogglePartial, DEFAULT_SETTINGS]

/-- Witness for C10: a concrete prior store with a custom key and a 70 %
threshold, wiped by a popup toggle to `false`. -/
def c10before : StoredSettings :=
  { minWatchPercent := some 70, minWatchTimeSeconds := some 120
    dataRetention := some "3m", openRouterApiKey := some "sk-custom"
    aiFeaturesEnabled := some true, trackingEnabled := some true }

theorem saveSettings_resets_unspecified_fields_witness :
    (getSettingsModel c10before).openRouterApiKey = "sk-custom" ∧
    (getSettingsModel c10before).minWatchPercent = 70 ∧
    getSettingsModel (saveSettingsState c10before (popupTogglePartial false)) =
      { DEFAULT_SETTINGS with trackingEnabled := false } :=
  saveSettings_resets_unspecified_fields.2 c10before false rfl rfl

/-! ### Settings sanitizer — dashboard.js lines 41-98

Numeric inputs are the values after the JavaScript `Number(...)`
coercion: `some q` for a finite number, `none` for `NaN` (out-of-type
submissions).  Boolean inputs are `some b` for the recognised inputs
(`boolean`, `'true'`, `'false'`), `none` otherwise. -/

/-- dashboard.js lines 41-50 (`FORM_DEFAULTS`). -/
def FORM_DEFAULTS : Settings :=
  { minWatchPercent := 40, minWatchTimeSeconds := 300
    trackAutoplay := true, countHiddenTime := true
    dataRetention := "all", openRouterApiKey := ""
    aiFeaturesEnabled := true, trackingEnabled := true }

/-- dashboard.js lines 54-59 (`clampNumber`): a finite in-range value
passes through, anything else falls back. -/
def clampNumber (v : Option ℚ) (lo hi fb : ℚ) : ℚ :=
  match v with
  | some q => if lo ≤ q ∧ q ≤ hi then q else fb
  | none => fb

/-- dashboard.js lines 61-66 (`ensureSeconds`): finite and `≥ 60`. -/
def ensureSeconds (v : Option ℚ) (fb : ℚ) : ℚ :=
  match v with
  | some q => if 60 ≤ q then q else fb
  | none => fb

/-- dashboard.js lines 68-73 (`parseBoolean`). -/
def parseBooleanM (v : Option Bool) (fb : Bool) : Bool := v.getD fb

/-- dashboard.js line 52 (`RETENTION_OPTIONS.has`). -/
def validRetention : Option String → Bool
  | some s => decide (s = "all" ∨ s = "3m" ∨ s = "6m" ∨ s = "1y")
  | none => false

/-- dashboard.js lines 75-98 (`sanitizeSettings`): each field of the
input is validated against a fallback computed by validating the same
field of `base` against `FORM_DEFAULTS`. -/
def sanitizeSettings (input base : StoredSettings) : Settings :=
  let fb : Settings :=
    { minWatchPercent := clampNumber base.minWatchPercent 10 80 FORM_DEFAULTS.minWatchPercent
      minWatchTimeSeconds := ensureSeconds base.minWatchTimeSeconds FORM_DEFAULTS.minWatchTimeSeconds
      trackAutoplay := parseBooleanM base.trackAutoplay FORM_DEFAULTS.trackAutoplay
      countHiddenTime := parseBooleanM base.countHiddenTime FORM_DEFAULTS.countHiddenTime
      dataRetention := if validRetention base.dataRetention then base.dataRetention.getD "all"
        else FORM_DEFAULTS.dataRetention
      openRouterApiKey := match base.openRouterApiKey with
        | some s => s
        | none => FORM_DEFAULTS.openRouterApiKey
      aiFeaturesEnabled := parseBooleanM base.aiFeaturesEnabled FORM_DEFAULTS.aiFeaturesEnabled
      trackingEnabled := parseBooleanM base.trackingEnabled FORM_DEFAULTS.trackingEnabled }
  { minWatchPercent := clampNumber input.minWatchPercent 10 80 fb.minWatchPercent
    minWatchTimeSeconds := ensureSeconds input.minWatchTimeSeconds fb.minWatchTimeSeconds
    trackAutoplay := parseBooleanM input.trackAutoplay fb.trackAutoplay
    countHiddenTime := parseBooleanM input.countHiddenTime fb.countHiddenTime
    dataRetention := if validRetention input.dataRetention then input.dataRetention.getD "all"
      else fb.dataRetention
    openRouterApiKey := match input.openRouterApiKey with
      | some s => s.trim
      | none => fb.openRouterApiKey
    aiFeaturesEnabled := parseBooleanM input.aiFeaturesEnabled fb.aiFeaturesEnabled
    trackingEnabled := parseBooleanM input.trackingEnabled fb.trackingEnabled }

/-- dashboard.js lines 338-363 (`handleSettingsSubmit`): sanitize the
submitted form against the current settings, then persist through
`saveSettings`; the persisted settings section afterwards. -/
def persistedAfterDashboardSave (before input base : StoredSettings) : Settings :=
  getSettingsModel (saveSettingsState before (toStored (sanitizeSettings input base)))

lemma overlayDefaults_toStored (s : Settings) : overlayDefaults (toStored s) = s := by
  simp [overlayDefaults, toStored]

lemma persistedAfterDashboardSave_eq (before input base : StoredSettings) :
    persistedAfterDashboardSave before input base = sanitizeSettings input base := by
  simp [persistedAfterDashboardSave, getSettingsModel, saveSettingsState,
    overlayDefaults_toStored]

/-- C5: when the submitted value of a numeric settings field is invalid
(wrongly typed, hence `NaN`, or out of range — e.g. `minWatchPercent =
200`) and the previously stored value of that field is valid, the
persisted value after a dashboard settings save is that previous valid
value — not the submitted one, and not the hardcoded default. -/
theorem sanitizeSettings_falls_back_to_previous :
    (∀ (before input base : StoredSettings) (q : ℚ),
        base.minWatchPercent = some q → 10 ≤ q → q ≤ 80 →
        (input.minWatchPercent = none ∨
          ∀ r, input.minWatchPercent = some r → (r < 10 ∨ 80 < r)) →
        (persistedAfterDashboardSave before input base).minWatchPercent = q)
    ∧ (∀ (before input base : StoredSettings) (q : ℚ),
        base.minWatchTimeSeconds = some q → 60 ≤ q →
        (input.minWatchTimeSeconds = none ∨
          ∀ r, input.minWatchTimeSeconds = some r → r < 60) →
        (persistedAfterDashboardSave before input base).minWatchTimeSeconds = q) := by
  constructor
  · intro before input base q hb h10 h80 hin
    rw [persistedAfterDashboardSave_eq]
    have hfb : clampNumber base.minWatchPercent 10 80 FORM_DEFAULTS.minWatchPercent = q := by
      simp [clampNumber, hb, h10, h80]
    rcases hin with hnone | hbad
    · simp [sanitizeSettings, hnone, clampNumber, hb, h10, h80]
    · cases hr : input.minWatchPercent with
      | none => simp [sanitizeSettings, hr, clampNumber, hb, h10, h80]
      | some r =>
        have hnr : ¬(10 ≤ r ∧ r ≤ 80) := by
          rcases hbad r hr with h | h
          · exact fun hc => absurd hc.1 (not_le.mpr h)
          · exact fun hc => absurd hc.2 (not_le.mpr h)
        simp [sanitizeSettings, hr, clampNumber, hnr, hb, h10, h80]
  · intro before input base q hb h60 hin
    rw [persistedAfterDashboardSave_eq]
    have hfb : ensureSeconds base.minWatchTimeSeconds FORM_DEFAULTS.minWatchTimeSeconds = q := by
      simp [ensureSeconds, hb, h60]
    rcases hin with hnone | hbad
    · simp [sanitizeSettings, hnone, ensureSeconds, hb, h60]
    · cases hr : input.minWatchTimeSeconds with
      | none => simp [sanitizeSettings, hr, ensureSeconds, hb, h60]
      | some r =>
        have hnr : ¬(60 ≤ r) := not_le.mpr (hbad r hr)
        simp [sanitizeSettings, hr, ensureSeconds, hnr, hb, h60]

/-- Witness for C5: submitting `minWatchPercent = 200` against a stored
valid `55` persists `55`. -/
def c5base : StoredSettings :=
  { minWatchPercent := some 55, minWatchTimeSeconds := some 120
    trackAutoplay := some true, countHiddenTime := some false
    dataRetention := some "all", openRouterApiKey := some "k"
    aiFeaturesEnabled := some true, trackingEnabled := some true }

def c5input : StoredSettings :=
  { c5base with minWatchPercent := some 200 }

theorem sanitizeSettings_falls_back_to_previous_witness :
    (persistedAfterDashboardSave c5base c5input c5base).minWatchPercent = 55 :=
  sanitizeSettings_falls_back_to_previous.1 c5base c5input c5base 55 rfl
    (by decide) (by decide)
    (Or.inr (fun r hr => by
      simp only [c5input, c5base] at hr
      cases hr
      exact Or.inr (by decide)))

/-! ### Classifier layer — utils/ai.js

`callOpenRouter` outcomes are abstracted into `CallOutcome`: `httpFail`
covers a network error or a non-2xx response (the function throws),
`ok content` a 2xx response whose `choices[0].message.content` is
`content` (`none` when the field is missing).  The response-body JSON is
modelled by a parser for flat string-valued objects — the shape the
classifier contract prescribes (a category field and a confidence
field); inputs used in the theorems stay inside this fragment. -/

inductive CallOutcome
  | httpFail
  | ok (content : Option String)
deriving Repr, DecidableEq

/-- ai.js lines 12-31 (`KEYWORD_HINTS`). -/
def KEYWORD_HINTS : List (String × List String) :=
  [("Gaming", ["game", "gaming", "let\x27s play", "walkthrough", "speedrun", "playthrough", "boss fight"]),
   ("Technology", ["tech", "iphone", "android", "gadget", "review", "unboxing", "hardware"]),
   ("Programming", ["javascript", "python", "coding", "tutorial", "react", "rust", "api", "typescript", "web dev"]),
   ("Music", ["music", "song", "cover", "instrumental", "lyrics", "band", "concert"]),
   ("Education", ["lecture", "class", "course", "study", "learn", "lesson"]),
   ("Science", ["science", "space", "experiment", "physics", "chemistry", "biology", "nasa"]),
   ("Finance", ["stock", "crypto", "invest", "trading", "money", "budget"]),
   ("Health", ["workout", "fitness", "diet", "health", "yoga", "meditation"]),
   ("Comedy", ["funny", "comedy", "skit", "sketch", "standup", "prank"]),
   ("News", ["news", "breaking", "update", "headline"]),
   ("Sports", ["match", "highlights", "football", "basketball", "soccer", "nfl", "nba", "fifa"]),
   ("Cooking", ["recipe", "cook", "kitchen", "bake", "chef", "meal"]),
   ("Travel", ["travel", "trip", "tour", "destination", "journey", "vlog"]),
   ("Art", ["art", "drawing", "painting", "illustration", "design"]),
   ("Productivity", ["productivity", "habit", "planner", "focus", "time management"]),
   ("Philosophy", ["philosophy", "ethics", "stoic", "existential"]),
   ("Politics", ["politics", "policy", "election", "government"]),
   ("History", ["history", "historic", "wwii", "ancient", "civilization"])]

/-- JavaScript `haystack.includes(needle)` on character lists. -/
def hasSubList (pat : List Char) : List Char → Bool
  | [] => pat.isEmpty
  | c :: t => pat.isPrefixOf (c :: t) || hasSubList pat t

/-- ai.js lines 33-41 (`inferHeuristicCategory`): first hint whose
keyword list hits the lowercased `title + ' ' + channelName`. -/
def inferHeuristicCategory (title channelName : String) : Option String :=
  let haystack := (title ++ " " ++ channelName).toList.map Char.toLower
  (KEYWORD_HINTS.find? (fun hint => hint.2.any (fun kw => hasSubList kw.toList haystack))).map
    Prod.fst

def isJsonWs (c : Char) : Bool := c = ' ' || c = '\n' || c = '\t' || c = '\r'

def skipWs : List Char → List Char
  | [] => []
  | c :: t => if isJsonWs c then skipWs t else c :: t

/-- A JSON string literal (escape-free fragment). -/
def parseStringLit : List Char → Option (String × List Char)
  | '"' :: rest =>
    match rest.span (fun c => !(c == '"')) with
    | (body, '"' :: rest2) => some (String.mk body, rest2)
    | _ => none
  | _ => none

def parsePair (cs : List Char) : Option ((String × String) × List Char) :=
  match parseStringLit (skipWs cs) with
  | none => none
  | some (k, r1) =>
    match skipWs r1 with
    | ':' :: r2 =>
      match parseStringLit (skipWs r2) with
      | none => none
      | some (v, r3) => some ((k, v), r3)
    | _ => none

def parsePairs : ℕ → List Char → Option (List (String × String) × List Char)
  | 0, _ => none
  | fuel + 1, cs =>
    match parsePair cs with
    | none => none
    | some (p, r) =>
      match skipWs r with
      | ',' :: r2 =>
        match parsePairs fuel r2 with
        | none => none
        | some (ps, r3) => some (p :: ps, r3)
      | r2 => some ([p], r2)

/-- `JSON.parse` restricted to flat objects with string values; fails on
anything else, including trailing garbage. -/
def parseFlatJson (cs : List Char) : Option (List (String × String)) :=
  match skipWs cs with
  | '\x7b' :: r =>
    match skipWs r with
    | '\x7d' :: r2 => if (skipWs r2).isEmpty then some [] else none
    | r1 =>
      match parsePairs (r1.length + 1) r1 with
      | none => none
      | some (ps, r2) =>
        match skipWs r2 with
        | '\x7d' :: r3 => if (skipWs r3).isEmpty then some ps else none
        | _ => none
  | _ => none

/-- JavaScript duplicate keys: the last occurrence wins. -/
def lookupField (ps : List (String × String)) (k : String) : Option String :=
  (ps.reverse.find? (fun p => p.1 == k)).map Prod.snd

/-- ai.js lines 71-80 (`parseJsonContent`): slice from the first
opening brace to one past the last closing brace (the whole content if
there is no opening brace) and parse; `none` is the thrown
parse-failure error. -/
def parseJsonContent (content : String) : Option (List (String × String)) :=
  let cs := content.toList
  let seg :=
    match cs.findIdx? (· == '\x7b') with
    | none => cs
    | some s =>
      let e :=
        match cs.reverse.findIdx? (· == '\x7d') with
        | none => 0
        | some i => cs.length - i
      (cs.drop s).take (e - s)
  parseFlatJson seg

structure AiResult where
  category : String
  confidence : String
deriving Repr, DecidableEq

/-- ai.js lines 116-120: the outer catch of `categorizeVideoAi` — the
heuristic category with confidence `medium` when a keyword matched,
otherwise `Uncategorized`/`low`. -/
def heuristicDefault (title channelName : String) : AiResult :=
  match inferHeuristicCategory title channelName with
  | some c => { category := c, confidence := "medium" }
  | none => { category := "Uncategorized", confidence := "low" }

/-- ai.js lines 103-115: content extraction, parse, and field
normalisation after a successful HTTP call; `none` when the outer catch
is reached instead (missing/empty content or parse failure). -/
def interpretContent (title channelName : String) : Option String → Option AiResult
  | none => none
  | some c =>
    if c = "" then none
    else
      match parseJsonContent c with
      | none => none
      | some ps =>
        let heuristic := inferHeuristicCategory title channelName
        let cleanCategory :=
          match lookupField ps "category" with
          | some s => s
          | none => "Uncategorized"
        let normalizedCategory :=
          if cleanCategory ≠ "" ∧ cleanCategory ≠ "Uncategorized" then cleanCategory
          else heuristic.getD "Uncategorized"
        let confidence :=
          match lookupField ps "confidence" with
          | some s =>
            if s = "" then (if heuristic.isSome then "medium" else "low") else s
          | none => if heuristic.isSome then "medium" else "low"
        some { category := normalizedCategory, confidence := confidence }

structure AiTrace where
  result : AiResult
  usedFallback : Bool
deriving Repr, DecidableEq

/-- ai.js lines 82-121 (`categorizeVideoAi`, primary/fallback variant):
the fallback model is called exactly when the primary HTTP call throws;
content extraction and parsing happen after that and fall to the
heuristic default on failure. -/
def categorizeVideoAi (title channelName : String) (primary fallback : CallOutcome) : AiTrace :=
  match primary with
  | .ok content =>
    match interpretContent title channelName content with
    | some r => { result := r, usedFallback := false }
    | none => { result := heuristicDefault title channelName, usedFallback := false }
  | .httpFail =>
    match fallback with
    | .ok content =>
      match interpretContent title channelName content with
      | some r => { result := r, usedFallback := true }
      | none => { result := heuristicDefault title channelName, usedFallback := true }
    | .httpFail => { result := heuristicDefault title channelName, usedFallback := true }

/-- Does a call outcome end the whole categorization in the outer catch
once it is the one whose content gets parsed? -/
def contentFails : CallOutcome → Bool
  | .httpFail => true
  | .ok none => true
  | .ok (some c) => c = "" || (parseJsonContent c).isNone

/-- The classification attempt as a whole reaches the outer catch:
ai.js control flow — the fallback outcome matters only when the primary
HTTP call threw. -/
def classificationFails (primary fallback : CallOutcome) : Bool :=
  match primary with
  | .ok c => contentFails (.ok c)
  | .httpFail => contentFails fallback

/-- service-worker.js lines 107-117: a queued categorization job. -/
structure Job where
  videoId : String
  title : String
  channelName : String
deriving Repr, DecidableEq

/-- service-worker.js lines 142-160 (`processSingleJob`): settings are
re-read at dequeue time; without AI/key the record is resolved
`Uncategorized`/`low` directly, otherwise the classifier result is
written back. -/
def processSingleJob (aiEnabled : Bool) (apiKey : String)
    (outcomes : Job → CallOutcome × CallOutcome)
    (store : List Video) (job : Job) : List Video :=
  if !aiEnabled || apiKey = "" then
    updateVideoCategory store job.videoId (some "Uncategorized") (some "low")
  else
    let t := categorizeVideoAi job.title job.channelName (outcomes job).1 (outcomes job).2
    updateVideoCategory store job.videoId (some t.result.category) (some t.result.confidence)

/-- service-worker.js lines 127-140 (`processQueueSafely`): drain the
FIFO front-to-back; every job is processed (`categorizeVideoAi` never
throws, and the per-job try/catch swallows what would), so the loop
always continues to the next job. -/
def processQueue (aiEnabled : Bool) (apiKey : String)
    (outcomes : Job → CallOutcome × CallOutcome)
    (store : List Video) (jobs : List Job) : List Video :=
  jobs.foldl (processSingleJob aiEnabled apiKey outcomes) store



lemma interpretContent_eq_none_iff (t c : String) (content : Option String) :
    interpretContent t c content = none ↔ contentFails (.ok content) = true := by
  cases content with
  | none => simp [interpretContent, contentFails]
  | some s =>
    by_cases hs : s = ""
    · simp [interpretContent, contentFails, hs]
    · cases hp : parseJsonContent s with
      | none => simp [interpretContent, contentFails, hs, hp]
      | some ps => simp [interpretContent, contentFails, hs, hp]

lemma categorizeVideoAi_of_fails (t c : String) (po fo : CallOutcome)
    (h : classificationFails po fo = true) :
    (categorizeVideoAi t c po fo).result = heuristicDefault t c := by
  cases po with
  | ok content =>
    have hnone : interpretContent t c content = none :=
      (interpretContent_eq_none_iff t c content).mpr (by simpa [classificationFails] using h)
    simp [categorizeVideoAi, hnone]
  | httpFail =>
    cases fo with
    | ok content =>
      have hnone : interpretContent t c content = none :=
        (interpretContent_eq_none_iff t c content).mpr (by simpa [classificationFails] using h)
      simp [categorizeVideoAi, hnone]
    | httpFail => simp [categorizeVideoAi]

/-- The category/confidence pair `processSingleJob` writes back for a
job under the given settings and call outcomes. -/
def jobResult (aiEnabled : Bool) (apiKey : String)
    (outcomes : Job → CallOutcome × CallOutcome) (job : Job) :
    Option String × Option String :=
  if !aiEnabled || apiKey = "" then (some "Uncategorized", some "low")
  else
    let t := categorizeVideoAi job.title job.channelName (outcomes job).1 (outcomes job).2
    (some t.result.category, some t.result.confidence)

lemma processSingleJob_eq (aiEnabled : Bool) (apiKey : String)
    (outcomes : Job → CallOutcome × CallOutcome) (store : List Video) (job : Job) :
    processSingleJob aiEnabled apiKey outcomes store job =
      updateVideoCategory store job.videoId
        (jobResult aiEnabled apiKey outcomes job).1
        (jobResult aiEnabled apiKey outcomes job).2 := by
  by_cases h : (!aiEnabled || apiKey = "") = true
  · simp [processSingleJob, jobResult, h]
  · simp [processSingleJob, jobResult, h]

lemma findVideo_updateVideoCategory_same :
    ∀ (store : List Video) (id : String) (cat conf : Option String),
      findVideo (updateVideoCategory store id cat conf) id =
        (findVideo store id).map
          (fun v => { v with aiCategory := cat, aiCategoryConfidence := conf })
  | [], _, _, _ => rfl
  | x :: xs, id, cat, conf => by
    by_cases hx : x.videoId = id
    · simp [updateVideoCategory, findVideo, List.find?_cons, hx]
    · simp only [updateVideoCategory, hx, if_false]
      simpa [findVideo, List.find?_cons, beq_eq_false_iff_ne.mpr hx] using
        findVideo_updateVideoCategory_same xs id cat conf

lemma findVideo_updateVideoCategory_other :
    ∀ (store : List Video) (id id' : String) (cat conf : Option String), id' ≠ id →
      findVideo (updateVideoCategory store id' cat conf) id = findVideo store id
  | [], _, _, _, _, _ => rfl
  | x :: xs, id, id', cat, conf, hne => by
    by_cases hx : x.videoId = id'
    · have : ¬x.videoId = id := fun hc => hne (hx ▸ hc)
      simp [updateVideoCategory, hx, findVideo, List.find?_cons,
        beq_eq_false_iff_ne.mpr this, beq_eq_false_iff_ne.mpr hne]
    · simp only [updateVideoCategory, hx, if_false]
      by_cases hid : x.videoId = id
      · simp [findVideo, List.find?_cons, hid]
      · simpa [findVideo, List.find?_cons, beq_eq_false_iff_ne.mpr hid] using
          findVideo_updateVideoCategory_other xs id id' cat conf hne

lemma processQueue_find_untouched (aiEnabled : Bool) (apiKey : String)
    (outcomes : Job → CallOutcome × CallOutcome) :
    ∀ (jobs : List Job) (store : List Video) (id : String),
      (∀ k ∈ jobs, k.videoId ≠ id) →
      findVideo (processQueue aiEnabled apiKey outcomes store jobs) id = findVideo store id
  | [], _, _, _ => rfl
  | x :: rest, store, id, h => by
    have hstep : processQueue aiEnabled apiKey outcomes store (x :: rest) =
        processQueue aiEnabled apiKey outcomes
          (processSingleJob aiEnabled apiKey outcomes store x) rest := rfl
    rw [hstep, processQueue_find_untouched aiEnabled apiKey outcomes rest _ id
      (fun k hk => h k (List.mem_cons_of_mem x hk))]
    rw [processSingleJob_eq]
    exact findVideo_updateVideoCategory_other store id x.videoId _ _
      (h x (List.mem_cons_self x rest))

lemma processQueue_find (aiEnabled : Bool) (apiKey : String)
    (outcomes : Job → CallOutcome × CallOutcome) :
    ∀ (jobs : List Job) (store : List Video) (j : Job),
      (jobs.map Job.videoId).Nodup → j ∈ jobs →
      findVideo (processQueue aiEnabled apiKey outcomes store jobs) j.videoId =
        (findVideo store j.videoId).map
          (fun v => { v with
            aiCategory := (jobResult aiEnabled apiKey outcomes j).1
            aiCategoryConfidence := (jobResult aiEnabled apiKey outcomes j).2 })
  | [], _, j, _, hmem => absurd hmem (List.not_mem_nil j)
  | x :: rest, store, j, hnd, hmem => by
    rw [List.map_cons, List.nodup_cons] at hnd
    have hstep : processQueue aiEnabled apiKey outcomes store (x :: rest) =
        processQueue aiEnabled apiKey outcomes
          (processSingleJob aiEnabled apiKey outcomes store x) rest := rfl
    rcases List.mem_cons.mp hmem with rfl | hrest
    · have hnotin : ∀ k ∈ rest, k.videoId ≠ j.videoId := by
        intro k hk hc
        exact hnd.1 (hc ▸ List.mem_map_of_mem Job.videoId hk)
      rw [hstep, processQueue_find_untouched aiEnabled apiKey outcomes rest _ j.videoId hnotin]
      rw [processSingleJob_eq]
      exact findVideo_updateVideoCategory_same store j.videoId _ _
    · have hxj : x.videoId ≠ j.videoId := by
        intro hc
        exact hnd.1 (hc ▸ List.mem_map_of_mem Job.videoId hrest)
      rw [hstep, processQueue_find aiEnabled apiKey outcomes rest
        (processSingleJob aiEnabled apiKey outcomes store x) j hnd.2 hrest,
        processSingleJob_eq,
        findVideo_updateVideoCategory_other store j.videoId x.videoId _ _ hxj]

/-- Counterexample to C1 as stated: a job whose title matches a keyword
hint (`"game"` → `Gaming`).  Both classifier calls fail with network
errors, yet the record ends with `category = "Gaming"`,
`confidence = "medium"` — not `"Uncategorized"`/`"low"`. -/
def c1rec : Video :=
  { videoId := "v1", title := "game", channelName := "", channelId := ""
    thumbnail := "", watchedAt := 0, watchedDuration := 1, totalDuration := 2
    watchPercent := 50, autoplay := false, rewatchCount := 1
    aiCategory := none, aiCategoryConfidence := none }

def c1job : Job := { videoId := "v1", title := "game", channelName := "" }

theorem categorize_failure_heuristic_counterexample :
    (findVideo (processQueue true "k" (fun _ => (.httpFail, .httpFail)) [c1rec] [c1job])
        "v1").map (fun v => (v.aiCategory, v.aiCategoryConfidence)) =
      some (some "Gaming", some "medium") ∧
    ¬((findVideo (processQueue true "k" (fun _ => (.httpFail, .httpFail)) [c1rec] [c1job])
        "v1").map (fun v => (v.aiCategory, v.aiCategoryConfidence)) =
      some (some "Uncategorized", some "low")) := by
  constructor
  · rfl
  · intro h
    rw [show (findVideo (processQueue true "k" (fun _ => (.httpFail, .httpFail)) [c1rec]
        [c1job]) "v1").map (fun v => (v.aiCategory, v.aiCategoryConfidence)) =
      some (some "Gaming", some "medium") from rfl] at h
    simp at h

/-- C1 (amended): when the classification attempt fails as a whole
(primary call fails and, if the fallback call is reached, it fails too
— network error, non-2xx, missing content, or malformed JSON), the
job's record is written back with the keyword-heuristic category and
confidence `"medium"` when a hint matches the title/channel, and with
`"Uncategorized"`/`"low"` only when no hint matches; either way every
queued job is processed, so the queue continues to the next job without
throwing. -/
theorem categorize_failure_writes_heuristic_default :
    (∀ (apiKey : String) (outcomes : Job → CallOutcome × CallOutcome)
        (store : List Video) (jobs : List Job) (j : Job) (rec : Video),
        apiKey ≠ "" →
        (jobs.map Job.videoId).Nodup → j ∈ jobs →
        classificationFails (outcomes j).1 (outcomes j).2 = true →
        findVideo store j.videoId = some rec →
        findVideo (processQueue true apiKey outcomes store jobs) j.videoId =
          some { rec with
            aiCategory := some (heuristicDefault j.title j.channelName).category
            aiCategoryConfidence := some (heuristicDefault j.title j.channelName).confidence })
    ∧ (∀ t c, inferHeuristicCategory t c = none →
        heuristicDefault t c = { category := "Uncategorized", confidence := "low" })
    ∧ (∀ t c cat, inferHeuristicCategory t c = some cat →
        heuristicDefault t c = { category := cat, confidence := "medium" }) := by
  refine ⟨?_, ?_, ?_⟩
  · intro apiKey outcomes store jobs j rec hkey hnd hmem hfail hfind
    rw [processQueue_find true apiKey outcomes jobs store j hnd hmem, hfind]
    have hres : (categorizeVideoAi j.title j.channelName (outcomes j).1 (outcomes j).2).result =
        heuristicDefault j.title j.channelName :=
      categorizeVideoAi_of_fails _ _ _ _ hfail
    simp [jobResult, hkey, hres]
  · intro t c h
    simp [heuristicDefault, h]
  · intro t c cat h
    simp [heuristicDefault, h]

/-- Witness for C1 (amended): a job with no matching keyword hint
(title `"zzz"`), both calls failing — the record ends
`Uncategorized`/`low` and the queue completes. -/
def c1recB : Video := { c1rec with videoId := "v2", title := "zzz" }

def c1jobB : Job := { videoId := "v2", title := "zzz", channelName := "" }

theorem categorize_failure_writes_heuristic_default_witness :
    findVideo (processQueue true "k" (fun _ => (.httpFail, .httpFail)) [c1recB] [c1jobB])
        "v2" =
      some { c1recB with
        aiCategory := some (heuristicDefault "zzz" "").category
        aiCategoryConfidence := some (heuristicDefault "zzz" "").confidence } :=
  categorize_failure_writes_heuristic_default.1 "k"
    (fun _ => (.httpFail, .httpFail)) [c1recB] [c1jobB] c1jobB c1recB
    (by decide) (by simp) (by simp) rfl rfl

/-- Counterexample to C9 as stated: the primary model answers 2xx with
unparseable content; the claim predicts a retry against the fallback
model (which here would have returned a valid `Music`/`high` object),
but the code never invokes the fallback and returns the default result
directly. -/
def c9good : String := "\x7b\"category\":\"Music\",\"confidence\":\"high\"\x7d"

theorem parse_error_triggers_fallback_counterexample :
    parseJsonContent "garbage" = none ∧
    interpretContent "t" "c" (some c9good) = some { category := "Music", confidence := "high" } ∧
    (categorizeVideoAi "t" "c" (.ok (some "garbage")) (.ok (some c9good))).usedFallback = false ∧
    (categorizeVideoAi "t" "c" (.ok (some "garbage")) (.ok (some c9good))).result =
      { category := "Uncategorized", confidence := "low" } := by
  refine ⟨rfl, rfl, rfl, rfl⟩

/-- C9 (amended): response parsing slices from the first opening brace
to one past the last closing brace and parses that segment; a parse
error (or missing/empty content) after a successful primary HTTP call
is a failure of the categorization as a whole — the result falls
directly to the heuristic default without invoking the fallback model;
the fallback model is invoked exactly when the primary HTTP call
throws. -/
theorem parse_error_falls_to_default_without_fallback :
    (∀ (t c s : String) (fo : CallOutcome),
        contentFails (.ok (some s)) = true →
        categorizeVideoAi t c (.ok (some s)) fo =
          { result := heuristicDefault t c, usedFallback := false })
    ∧ (∀ (t c : String) (po fo : CallOutcome),
        (categorizeVideoAi t c po fo).usedFallback = decide (po = CallOutcome.httpFail)) := by
  constructor
  · intro t c s fo h
    have hnone : interpretContent t c (some s) = none :=
      (interpretContent_eq_none_iff t c (some s)).mpr h
    simp [categorizeVideoAi, hnone]
  · intro t c po fo
    cases po with
    | ok content =>
      cases hc : interpretContent t c content <;> simp [categorizeVideoAi, hc]
    | httpFail =>
      cases fo with
      | ok content =>
        cases hc : interpretContent t c content <;> simp [categorizeVideoAi, hc]
      | httpFail => simp [categorizeVideoAi]

/-- Witness for C9 (amended): unparseable primary content, fallback
available but unused. -/
theorem parse_error_falls_to_default_without_fallback_witness :
    categorizeVideoAi "w" "x" (.ok (some "not json")) .httpFail =
      { result := heuristicDefault "w" "x", usedFallback := false } :=
  parse_error_falls_to_default_without_fallback.1 "w" "x" "not json" .httpFail rfl

/-! ### Service worker orchestration — background/service-worker.js -/

def RECENT_WINDOW_MS : ℤ := 7 * 24 * 60 * 60 * 1000

structure Report where
  content : String
  generatedAt : ℤ
deriving Repr, DecidableEq

/-- service-worker.js lines 175-196 (`handleWeeklyReport`), with the
classifier round trip (`buildWeeklySummary` + `generateWeeklyReportAi`)
abstracted as `generate` and instrumented with a call counter.  Errors
are the thrown messages. -/
def handleWeeklyReport (s : Settings) (now : ℤ) (history : List Video)
    (generate : List Video → Except String String) : Except String Report × ℕ :=
  if !s.aiFeaturesEnabled || s.openRouterApiKey = "" then
    (.error "AI disabled or API key missing", 0)
  else
    let recent := history.filter (fun v => decide (now - v.watchedAt ≤ RECENT_WINDOW_MS))
    if recent.isEmpty then (.error "No watch history in the past 7 days", 0)
    else
      match generate recent with
      | .ok content => (.ok { content := content, generatedAt := now }, 1)
      | .error e => (.error e, 1)

/-- C7: with AI configured, when no stored record has `watchedAt`
within the last 7 days, report generation fails with the distinct
no-recent-history error and performs zero classifier calls, whatever
the classifier would have answered. -/
theorem weekly_report_empty_window_never_calls_classifier :
    ∀ (s : Settings) (now : ℤ) (history : List Video)
      (generate : List Video → Except String String),
      s.aiFeaturesEnabled = true → s.openRouterApiKey ≠ "" →
      (∀ v ∈ history, ¬(now - v.watchedAt ≤ RECENT_WINDOW_MS)) →
      handleWeeklyReport s now history generate =
        (.error "No watch history in the past 7 days", 0) := by
  intro s now history generate hai hkey hold
  have hfilter : history.filter (fun v => decide (now - v.watchedAt ≤ RECENT_WINDOW_MS)) = [] := by
    rw [List.filter_eq_nil_iff]
    intro v hv
    simpa using hold v hv
  have hcond : (!s.aiFeaturesEnabled || s.openRouterApiKey = "") = false := by
    simp [hai, hkey]
  simp only [handleWeeklyReport, hcond, Bool.false_eq_true, if_false, hfilter,
    List.isEmpty_nil, if_true]

/-- Witness for C7: one record 100 days old, a week-long window, a
classifier that would answer successfully if called. -/
def c7settings : Settings := { DEFAULT_SETTINGS with openRouterApiKey := "k" }

def c7old : Video :=
  { videoId := "o", title := "old", channelName := "c", channelId := "ci"
    thumbnail := "t", watchedAt := 0, watchedDuration := 5, totalDuration := 10
    watchPercent := 50, autoplay := false, rewatchCount := 1
    aiCategory := none, aiCategoryConfidence := none }

theorem weekly_report_empty_window_never_calls_classifier_witness :
    handleWeeklyReport c7settings 8640000000 [c7old] (fun _ => Except.ok "report") =
      (.error "No watch history in the past 7 days", 0) :=
  weekly_report_empty_window_never_calls_classifier c7settings 8640000000 [c7old]
    (fun _ => Except.ok "report") rfl (by decide) (by decide)

/-- service-worker.js lines 107-117 (`queueCategorizationJob`):
append unless a job with the same id is already queued. -/
def queueCategorizationJob (queue : List Job) (v : Video) : List Job :=
  if queue.any (fun j => j.videoId == v.videoId) then queue
  else queue ++ [{ videoId := v.videoId, title := v.title, channelName := v.channelName }]

/-- The inbound `VIDEO_WATCHED` payload (tracker.js lines 186-200):
`videoId` may be absent. -/
structure Payload where
  videoId : Option String
  title : String
  channelName : String
  channelId : String
  thumbnail : String
  watchedAt : ℤ
  watchedDuration : ℕ
  totalDuration : ℕ
  watchPercent : ℕ
  autoplay : Bool
  rewatchCount : ℕ
  aiCategory : Option String
  aiCategoryConfidence : Option String
deriving Repr, DecidableEq

def toVideo (p : Payload) (id : String) : Video :=
  { videoId := id, title := p.title, channelName := p.channelName
    channelId := p.channelId, thumbnail := p.thumbnail, watchedAt := p.watchedAt
    watchedDuration := p.watchedDuration, totalDuration := p.totalDuration
    watchPercent := p.watchPercent, autoplay := p.autoplay
    rewatchCount := p.rewatchCount, aiCategory := p.aiCategory
    aiCategoryConfidence := p.aiCategoryConfidence }

inductive HandleResult
  | skipped
  | stored
deriving Repr, DecidableEq

/-- service-worker.js lines 82-105 (`handleVideoWatched`): a falsy
`videoId` throws `'Missing video id'`; tracking disabled, or an
autoplay event with autoplay-tracking disabled, returns
`{skipped: true}`; otherwise the record is saved, retention applied,
and the job queued (AI on, key present) or the record resolved
`Uncategorized`/`low`. -/
def handleVideoWatched (s : Settings) (now : ℤ) (store : List Video) (queue : List Job)
    (p : Payload) : Except String (HandleResult × List Video × List Job) :=
  match p.videoId with
  | none => .error "Missing video id"
  | some id =>
    if id = "" then .error "Missing video id"
    else if !s.trackingEnabled then .ok (.skipped, store, queue)
    else if p.autoplay && !s.trackAutoplay then .ok (.skipped, store, queue)
    else
      let store2 := applyRetentionPolicy s.dataRetention now (saveVideo store (toVideo p id))
      if s.aiFeaturesEnabled && !(s.openRouterApiKey == "") then
        .ok (.stored, store2, queueCategorizationJob queue (toVideo p id))
      else
        .ok (.stored, updateVideoCategory store2 id (some "Uncategorized") (some "low"), queue)

/-- Counterexample to C8 as stated: an event without a `videoId` is not
answered with a `skipped` no-op result — `handleVideoWatched` throws
`'Missing video id'` (surfaced to the sender as
`{success: false, error}`), even with tracking disabled. -/
def c8settingsOff : Settings := { DEFAULT_SETTINGS with trackingEnabled := false }

def c8payloadNoId : Payload :=
  { videoId := none, title := "t", channelName := "c", channelId := "ci"
    thumbnail := "th", watchedAt := 0, watchedDuration := 1, totalDuration := 2
    watchPercent := 50, autoplay := false, rewatchCount := 1
    aiCategory := none, aiCategoryConfidence := none }

theorem missing_id_returns_skipped_counterexample :
    handleVideoWatched c8settingsOff 0 [] [] c8payloadNoId = .error "Missing video id" ∧
    handleVideoWatched c8settingsOff 0 [] [] c8payloadNoId ≠
      Except.ok (HandleResult.skipped, ([] : List Video), ([] : List Job)) := by
  refine ⟨rfl, ?_⟩
  intro h
  rw [show handleVideoWatched c8settingsOff 0 [] [] c8payloadNoId =
    .error "Missing video id" from rfl] at h
  exact Except.noConfusion h

/-- C8 (amended): tracking disabled, or an autoplay event with
autoplay-tracking disabled, yields a `skipped` result with the store
and queue untouched; a missing (or empty) `mediaId` is instead rejected
with the thrown `'Missing video id'` error — checked before the other
two conditions — and also leaves the store and queue untouched. -/
theorem orchestrator_reject_paths :
    ∀ (s : Settings) (now : ℤ) (store : List Video) (queue : List Job) (p : Payload),
      ((p.videoId = none ∨ p.videoId = some "") →
        handleVideoWatched s now store queue p = .error "Missing video id")
      ∧ (∀ id, p.videoId = some id → id ≠ "" → s.trackingEnabled = false →
          handleVideoWatched s now store queue p = .ok (.skipped, store, queue))
      ∧ (∀ id, p.videoId = some id → id ≠ "" → s.trackingEnabled = true →
          p.autoplay = true → s.trackAutoplay = false →
          handleVideoWatched s now store queue p = .ok (.skipped, store, queue)) := by
  intro s now store queue p
  refine ⟨?_, ?_, ?_⟩
  · rintro (h | h) <;> simp [handleVideoWatched, h]
  · intro id hid hne htr
    simp [handleVideoWatched, hid, hne, htr]
  · intro id hid hne htr hap hta
    simp [handleVideoWatched, hid, hne, htr, hap, hta]

/-- Witness for C8 (amended): tracking disabled with a present id —
skipped, nothing stored or queued. -/
def c8payloadWithId : Payload := { c8payloadNoId with videoId := some "v" }

theorem orchestrator_reject_paths_witness :
    handleVideoWatched c8settingsOff 0 [] [] c8payloadWithId =
      Except.ok (HandleResult.skipped, ([] : List Video), ([] : List Job)) :=
  (orchestrator_reject_paths c8settingsOff 0 [] [] c8payloadWithId).2.1 "v" rfl
    (by decide) rfl

end YTH
